import Mathlib

/-!
Shallow embedding of the randpiper-rs BFT replica core
(src/consensus/src/bft/node/reactor.rs and context.rs), together with
theorems checking the natural-language specification against it.

Conventions of the embedding:
* machine integers become Nat (u16 replica ids, counters) or Int
  (the signed Height type, whose sentinel is -1);
* byte strings become List Nat;
* fallible code (a Rust unwrap or an out-of-bounds index, i.e. a panic)
  becomes an Option result, none meaning the process aborts;
* the external cryptographic primitives (signatures, hashing, the
  flexbuffers serializer, the EVSS polynomial commitments) are out of
  scope per the specification; handlers take them as explicit function
  parameters bundled in the Prims structure, so every definition stays
  executable and a concrete witness can instantiate them.
-/

abbrev Bytes := List Nat

abbrev Replica := Nat

abbrev Height := Int

/-- The all-zero 32-byte hash constant crypto::hash::EMPTY_HASH. -/
def EMPTY_HASH : Bytes := List.replicate 32 0

/-- Vote { msg, origin, auth } from types (as used by reactor.rs). -/
structure Vote where
  msg : Bytes
  origin : Replica
  auth : Bytes
deriving DecidableEq, Repr

/-- Certificate { votes } from types. -/
structure Certificate where
  votes : List Vote
deriving DecidableEq, Repr

/-- Block header { prev, author, height } as used by reactor.rs. -/
structure BlockHeader where
  prev : Bytes
  author : Replica
  height : Height
deriving DecidableEq, Repr

/-- Block { header, body (opaque bytes here), hash }. -/
structure Block where
  header : BlockHeader
  body : Bytes
  hash : Bytes
deriving DecidableEq, Repr

/-- Propose { new_block, certificate, epoch } as used by reactor.rs. -/
structure Propose where
  new_block : Block
  certificate : Certificate
  epoch : Height
deriving DecidableEq, Repr

/-- The steady-state ProtocolMsg wire union (types/src/msg/proto.rs).
EVSS shares and commitments are opaque naturals. -/
inductive Msg where
  | Certificate (c : Certificate)
  | Propose (p : Propose) (z : Bytes)
  | Vote (v : Vote)
  | VoteCert (c : Certificate) (z : Bytes)
  | DeliverPropose (sh : Bytes) (n : Replica) (z : Bytes)
  | DeliverVoteCert (sh : Bytes) (n : Replica) (z : Bytes)
  | Reconstruct (sh : Nat) (n : Replica) (e : Height)
  | Commit (sh : List Nat) (c : List Nat) (z : Bytes)
  | DeliverCommit (sh : Bytes) (n : Replica) (z : Bytes)
  | Ack (v : Vote)
deriving DecidableEq, Repr

/-- Reactor phases (reactor.rs, enum Phase). -/
inductive Phase where
  | Propose
  | DeliverPropose
  | DeliverCommit
  | Vote
  | Commit
  | End
deriving DecidableEq, Repr

/-- Modelled from the spec: the shard codec to_shards (the accumulator
module is not under src/). Spec 4.2 only constrains its length (N
shards), determinism, and reconstructibility; no claim depends on the
shard contents, so shard i is modelled as the tag i prepended to the
payload. -/
def to_shards (b : Bytes) (n : Nat) (_f : Nat) : List Bytes :=
  (List.range n).map (fun i => i :: b)

/-- Modelled from the spec: the verifiable gatherer state (spec 4.3;
the accumulator module is not under src/). -/
structure Gatherer where
  shards : List (Replica × Bytes)
  shard_num : Nat
  authenticator : Option Bytes
deriving DecidableEq, Repr

/-- Modelled from the spec: the empty gatherer (spec 4.3). -/
def Gatherer.empty : Gatherer :=
  { shards := [], shard_num := 0, authenticator := none }

/-- Modelled from the spec: add_share checks after the authenticator
has been fixed (spec 4.3): drop on shard-verification failure, drop a
duplicate sender, otherwise insert and increment shard_num. -/
def Gatherer.addChecked (vf : Bytes → Replica → Nat → Nat → Bytes → Bool)
    (g : Gatherer) (shard : Bytes) (sender : Replica)
    (params pk : Nat) (auth : Bytes) : Gatherer :=
  if vf shard sender params pk auth = false then g
  else if (g.shards.lookup sender).isSome then g
  else { g with shards := g.shards ++ [(sender, shard)],
                shard_num := g.shard_num + 1 }

/-- Modelled from the spec: Gatherer.add_share (spec 4.3). If the
authenticator is unset, fix it to auth; if set and different, drop the
share silently; then run the per-share checks. The shard-verification
primitive is the explicit parameter vf. -/
def Gatherer.add_share (vf : Bytes → Replica → Nat → Nat → Bytes → Bool)
    (g : Gatherer) (shard : Bytes) (sender : Replica)
    (params pk : Nat) (auth : Bytes) : Gatherer :=
  match g.authenticator with
  | some a =>
      if a = auth then Gatherer.addChecked vf g shard sender params pk auth
      else g
  | none =>
      Gatherer.addChecked vf { g with authenticator := some auth }
        shard sender params pk auth

/-- Modelled from the spec: Gatherer.reconstruct (spec 4.3) returns
some payload exactly when shard_num has reached N - f, and none below
the threshold. The reconstructed payload is modelled as the
concatenation of the collected shards; no claim depends on its value. -/
def Gatherer.reconstruct (g : Gatherer) (n f : Nat) : Option Bytes :=
  if n - f ≤ g.shard_num then some ((g.shards.map (fun p => p.2)).foldl (· ++ ·) [])
  else none

/-- The external cryptographic and serialization primitives consumed by
the Reactor, out of scope per the specification (section 1), passed as
explicit executable functions. -/
structure Prims where
  /-- shard verification: shard, sender, accumulator params, author pk, auth -/
  verifyShard : Bytes → Replica → Nat → Nat → Bytes → Bool
  /-- get_sign: the dispersal authenticator over a serialized payload -/
  getSign : Bytes → Bytes
  /-- my_secret_key.sign -/
  signVote : Bytes → Bytes
  /-- to_bytes of a Certificate -/
  serCert : Certificate → Bytes
  /-- to_bytes of a commit vector -/
  serCommits : List Nat → Bytes
  /-- Propose::from_bytes -/
  parsePropose : Bytes → Propose
  /-- commit_from_bytes -/
  parseCommits : Bytes → List Nat
  /-- Block.update_hash: the recomputed canonical hash of a block -/
  hashBlock : Block → Bytes
  /-- crypto::hash::ser_and_hash of a commit vector -/
  serHashC : List Nat → Bytes
  /-- EVSS381::reconstruct over collected beacon shares -/
  evssReconstruct : List Nat → Nat
  /-- hash of the serialization of a reconstructed VSS value, 32 bytes -/
  serHashVal : Nat → Fin 32 → Nat

/-- The node configuration the core receives at construction
(spec section 6); public keys and accumulator parameters are opaque
naturals keyed by replica id. -/
structure Config where
  num_nodes : Nat
  num_faults : Nat
  id : Replica
  pk_map : List (Replica × Nat)
  acc_params_map : List (Replica × Nat)
  delta : Nat
deriving DecidableEq, Repr

/-- The consensus state owned by the Reactor: the Context of
context.rs, extended with the Reactor-owned epoch/phase data fields
that reactor.rs uses (spec section 3, Epoch/phase data). Maps become
association lists; the fixed-size per-replica arrays become lists. -/
structure Context where
  num_nodes : Nat
  num_faults : Nat
  myid : Replica
  pub_key_map : List (Replica × Nat)
  accumulator_pub_params_map : List (Replica × Nat)
  last_leader : Replica
  storage_by_hash : List (Bytes × Block)
  storage_by_ht : List (Height × Block)
  highest_cert : Certificate
  highest_height : Height
  received_propose : Option Propose
  received_propose_sign : Option Bytes
  received_certificate : Option Certificate
  received_certificate_sign : Option Bytes
  received_commit : Option (List Nat)
  received_commit_sign : Option Bytes
  received_vote : List Vote
  received_ack : List Vote
  propose_gatherer : Gatherer
  vote_cert_gatherer : Gatherer
  commit_gatherer : Gatherer
  propose_share_sent : Bool
  vote_cert_share_sent : Bool
  commit_share_sent : Bool
  reconstruct_queue : List (List (Nat × Height))
  rand_beacon_queue : List (Replica × List Nat)
  shards : List (List Nat)
  commits : List Nat
  last_seen_block_cert : Certificate
deriving DecidableEq, Repr

/-- Context::next_of (context.rs line 107): round-robin successor. -/
def Context.next_of (cx : Context) (prev : Replica) : Replica :=
  (prev + 1) % cx.num_nodes

/-- Context::next_leader (context.rs line 103). -/
def Context.next_leader (cx : Context) : Replica :=
  cx.next_of cx.last_leader

/-- The genesis block constant (types crate): height 0, author 0,
all-zero prev; its hash is an arbitrary fixed 32-byte constant. -/
def GENESIS_BLOCK : Block :=
  { header := { prev := List.replicate 32 0, author := 0, height := 0 },
    body := [],
    hash := List.replicate 32 2 }

/-- Context::new (context.rs lines 37-101): pub_key_map is filled from
the configured pk_map skipping the replica's own id; the store is
seeded with the genesis block; highest_height starts at the sentinel
-1 and last_leader at 0. The Reactor-owned fields absent from the
Context of context.rs (gatherers, queues, slots) are modelled from the
spec (section 3): gatherers empty, slots none, queues empty, with
rand_beacon_queue keyed by every replica id as the End-phase loop of
reactor.rs requires. -/
def Context.new (cfg : Config) : Context :=
  { num_nodes := cfg.num_nodes
    num_faults := cfg.num_faults
    myid := cfg.id
    pub_key_map := cfg.pk_map.filter (fun p => p.1 ≠ cfg.id)
    accumulator_pub_params_map := cfg.acc_params_map
    last_leader := 0
    storage_by_hash := [(GENESIS_BLOCK.hash, GENESIS_BLOCK)]
    storage_by_ht := [(0, GENESIS_BLOCK)]
    highest_cert := { votes := [] }
    highest_height := -1
    received_propose := none
    received_propose_sign := none
    received_certificate := none
    received_certificate_sign := none
    received_commit := none
    received_commit_sign := none
    received_vote := []
    received_ack := []
    propose_gatherer := Gatherer.empty
    vote_cert_gatherer := Gatherer.empty
    commit_gatherer := Gatherer.empty
    propose_share_sent := false
    vote_cert_share_sent := false
    commit_share_sent := false
    reconstruct_queue := List.replicate cfg.num_nodes []
    rand_beacon_queue := (List.range cfg.num_nodes).map (fun i => (i, []))
    shards := List.replicate cfg.num_nodes []
    commits := []
    last_seen_block_cert := { votes := [] } }

/-- The number of WARN lines the Certificate handler prints: one per
vote whose signature fails verification against its origin's public
key (reactor.rs lines 193-197). -/
def warnCount (verify : Nat → Bytes → Bytes → Bool)
    (pkm : List (Replica × Nat)) (votes : List Vote) : Nat :=
  (votes.filter (fun v =>
    match pkm.lookup v.origin with
    | some pk => ¬ verify pk v.msg v.auth
    | none => true)).length

/-- The hash shared by a certificate's votes (reactor.rs line 198):
the first vote's msg, or EMPTY_HASH when there are no votes. -/
def certHash (p : Certificate) : Bytes :=
  match p.votes with
  | [] => EMPTY_HASH
  | v :: _ => v.msg

/-- The ProtocolMsg::Certificate handler (reactor.rs lines 190-206).
Only acts while this replica is the leader and in Propose. The vote
loop unwraps each origin's public key (panic, i.e. none, when a key is
missing) and only logs verification failures; the shared msg hash is
converted to [u8; 32] (panic when not 32 bytes), looked up in the
committed store, and (highest_cert, highest_height) adopted when the
block is found with a strictly larger height. Returns the new context
and the number of WARN lines printed. -/
def handleCertificate (verify : Nat → Bytes → Bytes → Bool)
    (cx : Context) (phase : Phase) (p : Certificate) :
    Option (Context × Nat) :=
  if cx.myid = cx.last_leader ∧ phase = Phase.Propose then
    if p.votes.all (fun v => (cx.pub_key_map.lookup v.origin).isSome) then
      if (certHash p).length = 32 then
        match cx.storage_by_hash.lookup (certHash p) with
        | some block =>
            if cx.highest_height < block.header.height then
              some ({ cx with highest_cert := p,
                              highest_height := block.header.height },
                    warnCount verify cx.pub_key_map p.votes)
            else some (cx, warnCount verify cx.pub_key_map p.votes)
        | none => some (cx, warnCount verify cx.pub_key_map p.votes)
      else none
    else none
  else some (cx, 0)

/-- The guarded append of the Reconstruct handler (reactor.rs lines
266-269): push to the back iff the queue is empty or the new epoch is
at least the epoch of the current back entry. -/
def pushReconstruct (q : List (Nat × Height)) (sh : Nat) (e : Height) :
    List (Nat × Height) :=
  match q.getLast? with
  | none => q ++ [(sh, e)]
  | some b => if b.2 ≤ e then q ++ [(sh, e)] else q

/-- The ProtocolMsg::Reconstruct handler (reactor.rs lines 265-270):
indexes reconstruct_queue directly with the wire-supplied replica id n
(panic, i.e. none, when n is out of bounds), then runs the guarded
append. No signature and no sender identity is consulted. -/
def handleReconstruct (cx : Context) (sh : Nat) (n : Replica) (e : Height) :
    Option Context :=
  if n < cx.reconstruct_queue.length then
    some { cx with reconstruct_queue :=
            (cx.reconstruct_queue.set n
              (pushReconstruct (cx.reconstruct_queue.getD n []) sh e)) }
  else none

/-- deliver_vote_cert (reactor.rs lines 77-115): split the recorded
certificate into shards, add our own shard to vote_cert_gatherer under
last_leader's accumulator parameters and public key (each map get is
unwrapped: none on a missing key, as when last_leader is ourselves and
thus absent from pub_key_map), send DeliverVoteCert for every other
replica and then for ourselves, and set vote_cert_share_sent. -/
def deliver_vote_cert (pr : Prims) (cx : Context) :
    Option (Context × List (Replica × Msg)) :=
  match cx.received_certificate, cx.received_certificate_sign with
  | some c, some z =>
    let shards := to_shards (pr.serCert c) cx.num_nodes cx.num_faults
    if cx.myid < shards.length then
      match cx.accumulator_pub_params_map.lookup cx.last_leader,
            cx.pub_key_map.lookup cx.last_leader with
      | some params, some pk =>
        let g := Gatherer.add_share pr.verifyShard cx.vote_cert_gatherer
                   (shards.getD cx.myid []) cx.myid params pk z
        let others := ((List.range cx.num_nodes).filter (fun i => i ≠ cx.myid)).map
          (fun i => (cx.num_nodes, Msg.DeliverVoteCert (shards.getD i []) i z))
        some ({ cx with vote_cert_gatherer := g, vote_cert_share_sent := true },
              others ++ [(cx.num_nodes, Msg.DeliverVoteCert (shards.getD cx.myid []) cx.myid z)])
      | _, _ => none
    else none
  | _, _ => none

/-- deliver_commit (reactor.rs lines 117-155): split the recorded
commit vector into shards; the replica's own shard is added to
propose_gatherer (sic, reactor.rs line 123) under next_leader's
accumulator parameters and public key; send DeliverCommit for every
other replica and then for ourselves; set commit_share_sent. -/
def deliver_commit (pr : Prims) (cx : Context) :
    Option (Context × List (Replica × Msg)) :=
  match cx.received_commit, cx.received_commit_sign with
  | some c, some z =>
    let shards := to_shards (pr.serCommits c) cx.num_nodes cx.num_faults
    if cx.myid < shards.length then
      match cx.accumulator_pub_params_map.lookup cx.next_leader,
            cx.pub_key_map.lookup cx.next_leader with
      | some params, some pk =>
        let g := Gatherer.add_share pr.verifyShard cx.propose_gatherer
                   (shards.getD cx.myid []) cx.myid params pk z
        let others := ((List.range cx.num_nodes).filter (fun i => i ≠ cx.myid)).map
          (fun i => (cx.num_nodes, Msg.DeliverCommit (shards.getD i []) i z))
        some ({ cx with propose_gatherer := g, commit_share_sent := true },
              others ++ [(cx.num_nodes, Msg.DeliverCommit (shards.getD cx.myid []) cx.myid z)])
      | _, _ => none
    else none
  | _, _ => none

/-- The ProtocolMsg::Propose handler (reactor.rs lines 207-210):
store the proposal and its dispersal authenticator. -/
def handleProposeMsg (cx : Context) (p : Propose) (z : Bytes) : Context :=
  { cx with received_propose := some p, received_propose_sign := some z }

/-- The ProtocolMsg::Vote handler (reactor.rs lines 211-225): append
the vote to received_vote; when the count reaches f+1, build
Certificate { votes: received_vote }, sign it via get_sign, broadcast
VoteCert, record the certificate and signature, disperse via
deliver_vote_cert, and move to phase Commit with the deadline reset to
now + 2 * delta. The returned deadline is some t when the timer was
reset. -/
def handleVoteMsg (pr : Prims) (delta nowT : Int) (cx : Context)
    (phase : Phase) (v : Vote) :
    Option (Context × Phase × Option Int × List (Replica × Msg)) :=
  let cx1 := { cx with received_vote := cx.received_vote ++ [v] }
  if cx1.received_vote.length = cx1.num_faults + 1 then
    let cert : Certificate := { votes := cx1.received_vote }
    let sign := pr.getSign (pr.serCert cert)
    let cx2 := { cx1 with received_certificate := some cert,
                          received_certificate_sign := some sign }
    match deliver_vote_cert pr cx2 with
    | none => none
    | some (cx3, dmsgs) =>
        some (cx3, Phase.Commit, some (nowT + 2 * delta),
              (cx1.num_nodes, Msg.VoteCert cert sign) :: dmsgs)
  else some (cx1, phase, none, [])

/-- The ProtocolMsg::VoteCert handler (reactor.rs lines 226-232):
record the certificate and signature, disperse via deliver_vote_cert,
move to phase Commit with the deadline reset to now + 2 * delta. -/
def handleVoteCertMsg (pr : Prims) (delta nowT : Int) (cx : Context)
    (c : Certificate) (z : Bytes) :
    Option (Context × Phase × Option Int × List (Replica × Msg)) :=
  let cx1 := { cx with received_certificate := some c,
                       received_certificate_sign := some z }
  match deliver_vote_cert pr cx1 with
  | none => none
  | some (cx2, dmsgs) =>
      some (cx2, Phase.Commit, some (nowT + 2 * delta), dmsgs)

/-- The ProtocolMsg::Commit handler (reactor.rs lines 271-275): append
the received shard deque to rand_beacon_queue[next_leader] (the map
get is unwrapped: none on a missing key) and store the commit vector
and its signature. -/
def handleCommitMsg (cx : Context) (sh : List Nat) (c : List Nat)
    (z : Bytes) : Option Context :=
  if (cx.rand_beacon_queue.lookup cx.next_leader).isSome then
    some { cx with
      rand_beacon_queue := cx.rand_beacon_queue.map
        (fun p => if p.1 = cx.next_leader then (p.1, p.2 ++ sh) else p),
      received_commit := some c,
      received_commit_sign := some z }
  else none

/-- The ProtocolMsg::DeliverCommit handler (reactor.rs lines 276-302):
if the shard is addressed to us and we have not yet echoed our commit
shard, rebroadcast it and set the flag; add the shard to
commit_gatherer under next_leader's accumulator parameters and public
key (map gets unwrapped); when shard_num reaches exactly N - f,
reconstruct the commit vector, hash it, build an Ack vote over the
hash signed with our key, and send Ack to next_leader unless we are
the next leader. -/
def handleDeliverCommit (pr : Prims) (cx : Context) (sh : Bytes)
    (n : Replica) (z : Bytes) :
    Option (Context × List (Replica × Msg)) :=
  let echo : List (Replica × Msg) :=
    if ¬ cx.commit_share_sent ∧ n = cx.myid then
      [(cx.num_nodes, Msg.DeliverCommit sh cx.myid z)]
    else []
  let cx1 := if ¬ cx.commit_share_sent ∧ n = cx.myid then
      { cx with commit_share_sent := true } else cx
  match cx1.accumulator_pub_params_map.lookup cx1.next_leader,
        cx1.pub_key_map.lookup cx1.next_leader with
  | some params, some pk =>
    let g := Gatherer.add_share pr.verifyShard cx1.commit_gatherer
               sh n params pk z
    let cx2 := { cx1 with commit_gatherer := g }
    if g.shard_num = cx2.num_nodes - cx2.num_faults then
      match g.reconstruct cx2.num_nodes cx2.num_faults with
      | none => none
      | some bytes =>
        let rc := pr.parseCommits bytes
        let vote : Vote := { msg := pr.serHashC rc, origin := cx2.myid,
                             auth := pr.signVote (pr.serHashC rc) }
        if cx2.myid ≠ cx2.next_leader then
          some (cx2, echo ++ [(cx2.next_leader, Msg.Ack vote)])
        else
          some (cx2, echo)
    else some (cx2, echo)
  | _, _ => none

/-- The ProtocolMsg::Ack handler (reactor.rs lines 303-305). -/
def handleAck (cx : Context) (v : Vote) : Context :=
  { cx with received_ack := cx.received_ack ++ [v] }

/-- The Phase::Vote deadline handler (reactor.rs lines 365-377):
reconstruct the proposal from propose_gatherer (the Option is
unwrapped: none, a panic, below the N - f threshold), recompute the
block hash, sign it, send the vote to last_leader, move to End with
the deadline at the epoch boundary begin + 11 * delta * epoch. -/
def phaseVote (pr : Prims) (beginT delta : Int) (epoch : Int)
    (cx : Context) :
    Option (Context × Phase × Int × List (Replica × Msg)) :=
  match cx.propose_gatherer.reconstruct cx.num_nodes cx.num_faults with
  | none => none
  | some bytes =>
    let propose := pr.parsePropose bytes
    let block := { propose.new_block with
                    hash := pr.hashBlock propose.new_block }
    let vote : Vote := { msg := block.hash, origin := cx.myid,
                         auth := pr.signVote block.hash }
    some (cx, Phase.End, beginT + 11 * delta * epoch,
          [(cx.last_leader, Msg.Vote vote)])

/-- The Phase::Commit deadline handler (reactor.rs lines 378-393):
reconstruct the proposal from propose_gatherer (the Option is
unwrapped: none, a panic, below the N - f threshold), insert the new
block into the store under both indices, clear the propose and
certificate slots, move to End with the deadline at the epoch
boundary. -/
def phaseCommit (pr : Prims) (beginT delta : Int) (epoch : Int)
    (cx : Context) :
    Option (Context × Phase × Int × List (Replica × Msg)) :=
  match cx.propose_gatherer.reconstruct cx.num_nodes cx.num_faults with
  | none => none
  | some bytes =>
    let propose := pr.parsePropose bytes
    let nb := propose.new_block
    some ({ cx with
            storage_by_hash := (nb.hash, nb) :: cx.storage_by_hash,
            storage_by_ht := (nb.header.height, nb) :: cx.storage_by_ht,
            received_propose := none,
            received_propose_sign := none,
            received_certificate := none,
            received_certificate_sign := none },
          Phase.End, beginT + 11 * delta * epoch, [])

/-- One step of the beacon accumulator (reactor.rs lines 413-415):
bytewise XOR of a 32-byte update into the accumulator. -/
def xorBytes (a b : Fin 32 → Nat) : Fin 32 → Nat :=
  fun i => Nat.xor (a i) (b i)

/-- The epoch beacon fold (reactor.rs lines 408-416): XOR each
per-value 32-byte hash into an accumulator initialized to all
zeros. -/
def beaconFold (updates : List (Fin 32 → Nat)) : Fin 32 → Nat :=
  updates.foldl xorBytes (fun _ => 0)

/-- The per-queue drain of the End phase (reactor.rs lines 398-403):
pop stale entries (epoch < current) from the front, then pop and
collect the entries whose epoch equals the current one. Returns the
collected shares and the remaining queue. -/
def drainQueue (epoch : Height) (q : List (Nat × Height)) :
    List Nat × List (Nat × Height) :=
  let q1 := q.dropWhile (fun p => p.2 < epoch)
  ((q1.takeWhile (fun p => p.2 = epoch)).map (fun p => p.1),
   q1.dropWhile (fun p => p.2 = epoch))

/-- The next-leader VSS staging of the End phase (reactor.rs lines
434-457): clear the staged shards and commits, generate N polynomials
(the rng-driven EVSS outputs are the explicit vssGen parameter: entry
k is the commitment and the per-replica share row of polynomial k),
sign the commit vector, append our own share column to
rand_beacon_queue[myid] (the map get is unwrapped: none on a missing
key), send Commit to every other replica, and record the staged
commit vector as received_commit. -/
def stageVss (pr : Prims) (vssGen : List (Nat × List Nat))
    (cx : Context) : Option (Context × List (Replica × Msg)) :=
  let n := cx.num_nodes
  let commits := (List.range n).map (fun k => (vssGen.getD k (0, [])).1)
  let shards := (List.range n).map
    (fun j => (List.range n).map (fun k => (vssGen.getD k (0, [])).2.getD j 0))
  let sign := pr.getSign (pr.serCommits commits)
  if (cx.rand_beacon_queue.lookup cx.myid).isSome then
    some ({ cx with
            shards := shards,
            commits := commits,
            rand_beacon_queue := cx.rand_beacon_queue.map
              (fun p => if p.1 = cx.myid then (p.1, p.2 ++ shards.getD cx.myid []) else p),
            received_commit := some commits,
            received_commit_sign := some sign },
          ((List.range n).filter (fun i => i ≠ cx.myid)).map
            (fun i => (i, Msg.Commit (shards.getD i []) commits sign)))
  else none

/-- One iteration of the End-phase reconstruction-shard loop
(reactor.rs lines 463-468): pop the front share of
rand_beacon_queue[i] (the map get is unwrapped: none on a missing
key). -/
def popRB (m : List (Replica × List Nat)) (i : Replica) :
    Option (Option Nat × List (Replica × List Nat)) :=
  match m.lookup i with
  | none => none
  | some q =>
      some (q.head?, m.map (fun p => if p.1 = i then (p.1, q.tail) else p))

/-- The End-phase reconstruction-shard loop (reactor.rs lines
463-468): for i in 0..N pop one pending share of authoring replica i
and broadcast it as Reconstruct(share, i, epoch). -/
def popAllRB (n : Nat) (epoch : Height) (m : List (Replica × List Nat)) :
    Option (List (Replica × List Nat) × List (Replica × Msg)) :=
  (List.range n).foldlM
    (fun (acc : List (Replica × List Nat) × List (Replica × Msg)) i =>
      match popRB acc.1 i with
      | none => none
      | some (sh?, m') =>
          match sh? with
          | some sh => some (m', acc.2 ++ [(n, Msg.Reconstruct sh i epoch)])
          | none => some (m', acc.2))
    (m, [])

/-- The Phase::End deadline handler (reactor.rs lines 394-469): drain
the reconstruct queues and EVSS-reconstruct every author with at least
N - f current shares; XOR the per-value hashes into the epoch beacon;
rotate last_leader to its round-robin successor and increment the
epoch; clear the three gatherers, received_vote, and the three
share-sent flags; if not the new leader, send the Certificate of the
last seen block to the new leader, schedule DeliverPropose, and (when
we are the leader after next) stage the next VSS dispersal; if the new
leader, schedule Propose at now + 2 * delta; finally pop and broadcast
one Reconstruct share per authoring replica. Returns the new context,
epoch, phase, deadline and outbound messages; none models a panic. -/
def phaseEnd (pr : Prims) (vssGen : List (Nat × List Nat))
    (beginT delta nowT : Int) (epoch : Height) (cx : Context) :
    Option (Context × Height × Phase × Int × List (Replica × Msg)) :=
  if cx.num_nodes ≤ cx.reconstruct_queue.length then
    let drained := (List.range cx.num_nodes).map
      (fun i => drainQueue epoch (cx.reconstruct_queue.getD i []))
    let vals := drained.filterMap
      (fun d => if cx.num_nodes - cx.num_faults ≤ d.1.length
                then some (pr.evssReconstruct d.1) else none)
    let _beacon := beaconFold (vals.map pr.serHashVal)
    let cx1 := { cx with
      reconstruct_queue := drained.map (fun d => d.2),
      last_leader := cx.next_leader,
      propose_gatherer := Gatherer.empty,
      vote_cert_gatherer := Gatherer.empty,
      commit_gatherer := Gatherer.empty,
      received_vote := [],
      propose_share_sent := false,
      vote_cert_share_sent := false,
      commit_share_sent := false }
    let epoch1 := epoch + 1
    if cx1.myid ≠ cx1.last_leader then
      (if cx1.myid = cx1.next_leader then stageVss pr vssGen cx1
       else some (cx1, [])).bind (fun s =>
        (popAllRB s.1.num_nodes epoch1 s.1.rand_beacon_queue).bind (fun r =>
          some ({ s.1 with rand_beacon_queue := r.1 }, epoch1,
                Phase.DeliverPropose,
                beginT + 11 * delta * (epoch1 - 1) + 7 * delta,
                ((cx1.last_leader, Msg.Certificate cx.last_seen_block_cert) :: s.2) ++ r.2)))
    else
      (popAllRB cx1.num_nodes epoch1 cx1.rand_beacon_queue).bind (fun r =>
        some ({ cx1 with rand_beacon_queue := r.1 }, epoch1,
              Phase.Propose, nowT + 2 * delta, r.2))
  else none

/-- One End transition between contexts, for any primitives, staged
VSS randomness and timing inputs. -/
def EndStep (cx cx' : Context) : Prop :=
  ∃ pr vssGen beginT delta nowT epoch epoch' ph dl msgs,
    phaseEnd pr vssGen beginT delta nowT epoch cx =
      some (cx', epoch', ph, dl, msgs)

/-- The epochs stored in one reconstruct queue are non-decreasing from
front to back. -/
def EpochsSorted (q : List (Nat × Height)) : Prop :=
  List.Pairwise (fun a b => a.2 ≤ b.2) q

/-- Every per-author reconstruct queue has non-decreasing epochs. -/
def QueuesSorted (qs : List (List (Nat × Height))) : Prop :=
  ∀ q ∈ qs, EpochsSorted q

/-- One transition of the embedded Reactor: any modelled inbound
message handler or deadline handler that completes without a panic. -/
inductive Step : Context → Context → Prop where
  | certificate (ver : Nat → Bytes → Bytes → Bool) (cx : Context)
      (phase : Phase) (p : Certificate) (cx' : Context) (w : Nat) :
      handleCertificate ver cx phase p = some (cx', w) → Step cx cx'
  | propose (cx : Context) (p : Propose) (z : Bytes) :
      Step cx (handleProposeMsg cx p z)
  | vote (pr : Prims) (delta nowT : Int) (cx : Context) (phase : Phase)
      (v : Vote) (cx' : Context) (ph : Phase) (dl : Option Int)
      (ms : List (Replica × Msg)) :
      handleVoteMsg pr delta nowT cx phase v = some (cx', ph, dl, ms) →
      Step cx cx'
  | voteCert (pr : Prims) (delta nowT : Int) (cx : Context)
      (c : Certificate) (z : Bytes) (cx' : Context) (ph : Phase)
      (dl : Option Int) (ms : List (Replica × Msg)) :
      handleVoteCertMsg pr delta nowT cx c z = some (cx', ph, dl, ms) →
      Step cx cx'
  | reconstruct (cx : Context) (sh : Nat) (n : Replica) (e : Height)
      (cx' : Context) :
      handleReconstruct cx sh n e = some cx' → Step cx cx'
  | commitMsg (cx : Context) (sh : List Nat) (c : List Nat) (z : Bytes)
      (cx' : Context) :
      handleCommitMsg cx sh c z = some cx' → Step cx cx'
  | deliverCommit (pr : Prims) (cx : Context) (sh : Bytes) (n : Replica)
      (z : Bytes) (cx' : Context) (ms : List (Replica × Msg)) :
      handleDeliverCommit pr cx sh n z = some (cx', ms) → Step cx cx'
  | ack (cx : Context) (v : Vote) : Step cx (handleAck cx v)
  | dispComm (pr : Prims) (cx : Context) (cx' : Context)
      (ms : List (Replica × Msg)) :
      deliver_commit pr cx = some (cx', ms) → Step cx cx'
  | dispVC (pr : Prims) (cx : Context) (cx' : Context)
      (ms : List (Replica × Msg)) :
      deliver_vote_cert pr cx = some (cx', ms) → Step cx cx'
  | phVote (pr : Prims) (beginT delta : Int) (epoch : Int) (cx : Context)
      (cx' : Context) (ph : Phase) (dl : Int) (ms : List (Replica × Msg)) :
      phaseVote pr beginT delta epoch cx = some (cx', ph, dl, ms) →
      Step cx cx'
  | phCommit (pr : Prims) (beginT delta : Int) (epoch : Int)
      (cx : Context) (cx' : Context) (ph : Phase) (dl : Int)
      (ms : List (Replica × Msg)) :
      phaseCommit pr beginT delta epoch cx = some (cx', ph, dl, ms) →
      Step cx cx'
  | phEnd (pr : Prims) (vssGen : List (Nat × List Nat))
      (beginT delta nowT : Int) (epoch : Height) (cx : Context)
      (cx' : Context) (e' : Height) (ph : Phase) (dl : Int)
      (ms : List (Replica × Msg)) :
      phaseEnd pr vssGen beginT delta nowT epoch cx =
        some (cx', e', ph, dl, ms) → Step cx cx'

/-- A context reachable from the freshly constructed one under the
modelled transitions. -/
def Reach (cfg : Config) (cx : Context) : Prop :=
  Relation.ReflTransGen Step (Context.new cfg) cx

/-- A concrete, fully executable instantiation of the external
primitives, used by witnesses. -/
def prims0 : Prims :=
  { verifyShard := fun _ _ _ _ _ => true
    getSign := fun _ => [4]
    signVote := fun b => b
    serCert := fun _ => []
    serCommits := fun c => c
    parsePropose := fun _ =>
      { new_block := GENESIS_BLOCK, certificate := { votes := [] }, epoch := 0 }
    parseCommits := fun b => b
    hashBlock := fun b => b.hash
    serHashC := fun c => c
    evssReconstruct := fun l => l.foldl (· + ·) 0
    serHashVal := fun v _ => v }

/-- A signature verifier that rejects everything. -/
def verFalse : Nat → Bytes → Bytes → Bool := fun _ _ _ => false

/-- A signature verifier that accepts everything. -/
def verTrue : Nat → Bytes → Bytes → Bool := fun _ _ _ => true

/-- One-replica configuration. -/
def cfg1 : Config :=
  { num_nodes := 1, num_faults := 0, id := 0,
    pk_map := [(0, 10)], acc_params_map := [(0, 20)], delta := 10 }

/-- Two-replica configuration seen from replica 0. -/
def cfg2 : Config :=
  { num_nodes := 2, num_faults := 0, id := 0,
    pk_map := [(0, 10), (1, 11)], acc_params_map := [(0, 20), (1, 21)],
    delta := 100 }

/-- Two-replica configuration seen from replica 1. -/
def cfg2b : Config :=
  { num_nodes := 2, num_faults := 0, id := 1,
    pk_map := [(0, 10), (1, 11)], acc_params_map := [(0, 20), (1, 21)],
    delta := 100 }

/-- Four-replica configuration tolerating one fault. -/
def cfg4 : Config :=
  { num_nodes := 4, num_faults := 1, id := 2,
    pk_map := [(0, 10), (1, 11), (2, 12), (3, 13)],
    acc_params_map := [(0, 20), (1, 21), (2, 22), (3, 23)], delta := 100 }

/-- A concrete 32-byte block hash. -/
def hashA : Bytes := List.replicate 32 7

/-- A concrete 32-byte block hash distinct from hashA. -/
def hashB : Bytes := List.replicate 32 8

/-- A committed block of height 5 with hash hashA. -/
def blk5 : Block :=
  { header := { prev := List.replicate 32 0, author := 1, height := 5 },
    body := [], hash := hashA }

/-- A committed block of height 7 with hash hashB. -/
def blk7 : Block :=
  { header := { prev := hashA, author := 1, height := 7 },
    body := [], hash := hashB }

/-- Replica 0 as leader in Propose with blocks of heights 5 and 7 in
its committed store. -/
def cxLeader : Context :=
  { Context.new cfg2 with
      storage_by_hash :=
        (hashA, blk5) :: (hashB, blk7) :: (Context.new cfg2).storage_by_hash }

/-- A certificate over the height-5 block. -/
def cert5 : Certificate :=
  { votes := [{ msg := hashA, origin := 1, auth := [1] }] }

/-- A certificate over the height-7 block. -/
def cert7 : Certificate :=
  { votes := [{ msg := hashB, origin := 1, auth := [2] }] }

/-- cxLeader after adopting the certificate over the height-5 block. -/
def cxLeader5 : Context :=
  { cxLeader with highest_cert := cert5, highest_height := 5 }

/-- A concrete inbound vote. -/
def voteW : Vote := { msg := [5], origin := 0, auth := [6] }

/-- Replica 1 with last_leader 1 and a recorded commit vector, about
to run deliver_commit. -/
def cxC4 : Context :=
  { Context.new cfg2b with
      last_leader := 1,
      received_commit := some [3],
      received_commit_sign := some [4] }

/-- A certificate carrying a vote whose origin is replica 0 itself. -/
def certOwn : Certificate :=
  { votes := [{ msg := hashA, origin := 0, auth := [1] }] }

theorem xorBytes_right_comm (a x y : Fin 32 → Nat) :
    xorBytes (xorBytes a x) y = xorBytes (xorBytes a y) x := by
  funext i
  show (a i ^^^ x i) ^^^ y i = (a i ^^^ y i) ^^^ x i
  rw [Nat.xor_assoc, Nat.xor_assoc, Nat.xor_comm (x i) (y i)]

/-- C8: the epoch beacon, computed by XOR-ing the 32-byte hash of the
serialization of each reconstructed VSS value into an all-zero
accumulator, is invariant under the order of incorporation: any two
orderings of the same multiset of reconstructed values yield the same
32-byte output. -/
theorem beacon_order_invariant {V : Type} (serHash : V → Fin 32 → Nat)
    (l1 l2 : List V) (h : l1.Perm l2) :
    beaconFold (l1.map serHash) = beaconFold (l2.map serHash) := by
  unfold beaconFold
  exact (h.map serHash).foldl_eq'
    (fun x _ y _ z => xorBytes_right_comm z x y) (fun _ => 0)

/-- Witness for beacon_order_invariant: two orderings of a concrete
two-value multiset give the same beacon. -/
theorem beacon_order_invariant_witness :
    ([3, 9] : List Nat).Perm [9, 3] ∧
    beaconFold (([3, 9] : List Nat).map prims0.serHashVal) =
      beaconFold (([9, 3] : List Nat).map prims0.serHashVal) :=
  ⟨by decide, beacon_order_invariant prims0.serHashVal [3, 9] [9, 3] (by decide)⟩

/-- C2: at a Vote or Commit deadline with the propose gatherer below
the N - f threshold (here 0 of 3 shards, N = 4, f = 1), the phase
handler unwraps the None reconstruction and panics (modelled none):
the process aborts rather than proceeding to the epoch boundary. -/
theorem vote_commit_deadline_below_quorum_panics :
    (Context.new cfg4).propose_gatherer.shard_num = 0 ∧
    (Context.new cfg4).num_nodes - (Context.new cfg4).num_faults = 3 ∧
    phaseVote prims0 0 100 1 (Context.new cfg4) = none ∧
    phaseCommit prims0 0 100 1 (Context.new cfg4) = none := by
  refine ⟨rfl, rfl, rfl, rfl⟩

/-- C4: deliver_commit at a concrete state with a recorded commit
vector adds the disperser's own commit shard to propose_gatherer, not
commit_gatherer (reactor.rs line 123), while the inbound DeliverCommit
handler adds its shard to commit_gatherer; both use next_leader's
accumulator parameters and public key. -/
theorem deliver_commit_feeds_propose_gatherer :
    deliver_commit prims0 cxC4 =
      some ({ cxC4 with
              propose_gatherer :=
                { shards := [(1, [1, 3])], shard_num := 1,
                  authenticator := some [4] },
              commit_share_sent := true },
            [(2, Msg.DeliverCommit [0, 3] 0 [4]),
             (2, Msg.DeliverCommit [1, 3] 1 [4])]) ∧
    cxC4.commit_gatherer = Gatherer.empty ∧
    handleDeliverCommit prims0 cxC4 [9] 0 [4] =
      some ({ cxC4 with
              commit_gatherer :=
                { shards := [(0, [9])], shard_num := 1,
                  authenticator := some [4] } }, []) := by
  refine ⟨rfl, rfl, rfl⟩

theorem lookup_filter_ne_self {β : Type} (l : List (Nat × β)) (k : Nat) :
    (l.filter (fun p => p.1 ≠ k)).lookup k = none := by
  induction l with
  | nil => rfl
  | cons a t ih =>
      obtain ⟨a1, a2⟩ := a
      rw [List.filter_cons]
      by_cases h : a1 = k
      · rw [if_neg (by simp [h])]
        exact ih
      · rw [if_pos (by simp [h]), List.lookup_cons,
          beq_false_of_ne (fun he => h he.symm)]
        exact ih

theorem lookup_filter_ne {β : Type} (l : List (Nat × β)) (k i : Nat)
    (h : i ≠ k) :
    (l.filter (fun p => p.1 ≠ k)).lookup i = l.lookup i := by
  induction l with
  | nil => rfl
  | cons a t ih =>
      obtain ⟨a1, a2⟩ := a
      by_cases ha : a1 = k
      · rw [List.filter_cons, if_neg (by simp [ha]), ih, List.lookup_cons,
          beq_false_of_ne (fun he => h (he.trans ha))]
      · rw [List.filter_cons, if_pos (by simp [ha]), List.lookup_cons,
          List.lookup_cons]
        cases hb : (i == a1) with
        | true => rfl
        | false => exact ih

theorem handleCertificate_leader_eq (ver : Nat → Bytes → Bytes → Bool)
    (cx : Context) (p : Certificate)
    (hl : cx.myid = cx.last_leader)
    (hk : p.votes.all (fun u => (cx.pub_key_map.lookup u.origin).isSome) = true)
    (h32 : (certHash p).length = 32) :
    handleCertificate ver cx Phase.Propose p =
      match cx.storage_by_hash.lookup (certHash p) with
      | some block =>
          if cx.highest_height < block.header.height then
            some ({ cx with highest_cert := p,
                            highest_height := block.header.height },
                  warnCount ver cx.pub_key_map p.votes)
          else some (cx, warnCount ver cx.pub_key_map p.votes)
      | none => some (cx, warnCount ver cx.pub_key_map p.votes) := by
  unfold handleCertificate
  rw [if_pos ⟨hl, rfl⟩, if_pos hk, if_pos h32]

/-- C6: while leader in Propose (with every vote origin's key known
and a nonempty vote list whose shared msg is 32 bytes), the
Certificate handler adopts (highest_cert, highest_height) = (p,
block.height) exactly when the referenced block is in the committed
store with height strictly above highest_height, leaves the state
unchanged otherwise, and highest_height never decreases. -/
theorem certificate_adoption (ver : Nat → Bytes → Bytes → Bool)
    (cx : Context) (p : Certificate) (v : Vote) (vs : List Vote)
    (hl : cx.myid = cx.last_leader) (hv : p.votes = v :: vs)
    (hk : p.votes.all (fun u => (cx.pub_key_map.lookup u.origin).isSome) = true)
    (h32 : v.msg.length = 32) :
    (∀ blk, cx.storage_by_hash.lookup v.msg = some blk →
        cx.highest_height < blk.header.height →
        handleCertificate ver cx Phase.Propose p =
          some ({ cx with highest_cert := p,
                          highest_height := blk.header.height },
                warnCount ver cx.pub_key_map p.votes)) ∧
    (∀ blk, cx.storage_by_hash.lookup v.msg = some blk →
        ¬ cx.highest_height < blk.header.height →
        handleCertificate ver cx Phase.Propose p =
          some (cx, warnCount ver cx.pub_key_map p.votes)) ∧
    (cx.storage_by_hash.lookup v.msg = none →
        handleCertificate ver cx Phase.Propose p =
          some (cx, warnCount ver cx.pub_key_map p.votes)) ∧
    (∀ cx' w, handleCertificate ver cx Phase.Propose p = some (cx', w) →
        cx.highest_height ≤ cx'.highest_height) := by
  have hch : certHash p = v.msg := by rw [certHash, hv]
  have heq := handleCertificate_leader_eq ver cx p hl hk (by rw [hch]; exact h32)
  rw [hch] at heq
  refine ⟨?_, ?_, ?_, ?_⟩
  · intro blk hlk hlt
    rw [heq, hlk]
    exact if_pos hlt
  · intro blk hlk hlt
    rw [heq, hlk]
    exact if_neg hlt
  · intro hlk
    rw [heq, hlk]
  · intro cx' w hres
    rw [heq] at hres
    cases hlk : cx.storage_by_hash.lookup v.msg with
    | none =>
        rw [hlk] at hres
        have hres2 : some (cx, warnCount ver cx.pub_key_map p.votes) =
            some (cx', w) := hres
        cases hres2
        exact le_refl _
    | some blk =>
        rw [hlk] at hres
        have hres2 : (if cx.highest_height < blk.header.height then
            some ({ cx with highest_cert := p,
                            highest_height := blk.header.height },
                  warnCount ver cx.pub_key_map p.votes)
          else some (cx, warnCount ver cx.pub_key_map p.votes)) =
            some (cx', w) := hres
        by_cases hlt : cx.highest_height < blk.header.height
        · rw [if_pos hlt] at hres2
          cases hres2
          exact le_of_lt hlt
        · rw [if_neg hlt] at hres2
          cases hres2
          exact le_refl _

/-- Witness for certificate_adoption, mirroring scenario S6: the
leader processes certificates over stored blocks of heights 5 and 7;
afterwards highest_height is 7 and highest_cert is the second
certificate. -/
theorem certificate_adoption_witness :
    handleCertificate verTrue cxLeader Phase.Propose cert5 =
      some (cxLeader5, 0) ∧
    handleCertificate verTrue cxLeader5 Phase.Propose cert7 =
      some ({ cxLeader5 with highest_cert := cert7, highest_height := 7 },
            warnCount verTrue cxLeader5.pub_key_map cert7.votes) :=
  ⟨by rfl,
   (certificate_adoption verTrue cxLeader5 cert7
      { msg := hashB, origin := 1, auth := [2] } [] rfl rfl (by rfl)
      (by rfl)).1 blk7 (by rfl) (by decide)⟩

/-- Counterexample to C1: with a verifier that rejects every
signature, the leader in Propose processing a certificate whose only
vote therefore fails verification still adopts it: one WARN line is
printed and (highest_cert, highest_height) move from (empty, -1) to
(cert5, 5), contradicting the claim that they are left unchanged. -/
theorem certificate_bad_vote_adopted_cex :
    verFalse 11 hashA [1] = false ∧
    cxLeader.myid = cxLeader.last_leader ∧
    cxLeader.highest_height = -1 ∧
    handleCertificate verFalse cxLeader Phase.Propose cert5 =
      some ({ cxLeader with highest_cert := cert5, highest_height := 5 }, 1) := by
  refine ⟨rfl, rfl, rfl, rfl⟩

/-- C1 (amended): while leader in Propose, an inbound Certificate with
a vote whose signature fails verification is not rejected: apart from
the WARN log the handler's result is independent of the verifier, so
the state outcome (including any adoption of highest_cert and
highest_height) equals that of a fully-verifying certificate; and
processing never aborts provided every vote origin's key is known and
the shared hash is 32 bytes long. -/
theorem certificate_bad_vote_only_warns (ver ver' : Nat → Bytes → Bytes → Bool)
    (cx : Context) (phase : Phase) (p : Certificate) :
    Option.map Prod.fst (handleCertificate ver cx phase p) =
      Option.map Prod.fst (handleCertificate ver' cx phase p) ∧
    ((p.votes.all (fun u => (cx.pub_key_map.lookup u.origin).isSome)) = true →
      (certHash p).length = 32 →
      (handleCertificate ver cx phase p).isSome = true) := by
  constructor
  · by_cases h1 : cx.myid = cx.last_leader ∧ phase = Phase.Propose
    · by_cases h2 :
        (p.votes.all (fun u => (cx.pub_key_map.lookup u.origin).isSome)) = true
      · by_cases h3 : (certHash p).length = 32
        · unfold handleCertificate
          rw [if_pos h1, if_pos h1, if_pos h2, if_pos h2, if_pos h3, if_pos h3]
          cases hlk : cx.storage_by_hash.lookup (certHash p) with
          | none => rfl
          | some blk =>
              by_cases h4 : cx.highest_height < blk.header.height
              · show Option.map Prod.fst (if cx.highest_height < blk.header.height
                    then _ else _) = Option.map Prod.fst
                      (if cx.highest_height < blk.header.height then _ else _)
                rw [if_pos h4, if_pos h4]
                rfl
              · show Option.map Prod.fst (if cx.highest_height < blk.header.height
                    then _ else _) = Option.map Prod.fst
                      (if cx.highest_height < blk.header.height then _ else _)
                rw [if_neg h4, if_neg h4]
                rfl
        · unfold handleCertificate
          rw [if_pos h1, if_pos h1, if_pos h2, if_pos h2, if_neg h3, if_neg h3]
      · unfold handleCertificate
        rw [if_pos h1, if_pos h1, if_neg h2, if_neg h2]
    · unfold handleCertificate
      rw [if_neg h1, if_neg h1]
  · intro h2 h3
    by_cases h1 : cx.myid = cx.last_leader ∧ phase = Phase.Propose
    · unfold handleCertificate
      rw [if_pos h1, if_pos h2, if_pos h3]
      cases hlk : cx.storage_by_hash.lookup (certHash p) with
      | none => rfl
      | some blk =>
          by_cases h4 : cx.highest_height < blk.header.height
          · show (if cx.highest_height < blk.header.height
                then _ else _ : Option (Context × Nat)).isSome = true
            rw [if_pos h4]
            rfl
          · show (if cx.highest_height < blk.header.height
                then _ else _ : Option (Context × Nat)).isSome = true
            rw [if_neg h4]
            rfl
    · unfold handleCertificate
      rw [if_neg h1]
      rfl

/-- Witness for certificate_bad_vote_only_warns at a concrete leader
state and certificate. -/
theorem certificate_bad_vote_only_warns_witness :
    Option.map Prod.fst (handleCertificate verFalse cxLeader Phase.Propose cert7) =
      Option.map Prod.fst (handleCertificate verTrue cxLeader Phase.Propose cert7) ∧
    (handleCertificate verFalse cxLeader Phase.Propose cert7).isSome = true :=
  ⟨(certificate_bad_vote_only_warns verFalse verTrue cxLeader Phase.Propose cert7).1,
   (certificate_bad_vote_only_warns verFalse verTrue cxLeader Phase.Propose
      cert7).2 (by rfl) (by rfl)⟩

/-- C9: Context::new populates pub_key_map with the key of every
configured replica except the node's own id; consequently the
Certificate handler, while leader in Propose, panics (none) on any
certificate containing a vote whose origin has no entry in
pub_key_map — in particular the replica's own id. -/
theorem pub_key_map_skips_self_and_cert_panics (cfg : Config) :
    (Context.new cfg).pub_key_map.lookup cfg.id = none ∧
    (∀ i, i ≠ cfg.id →
        (Context.new cfg).pub_key_map.lookup i = cfg.pk_map.lookup i) ∧
    (∀ (ver : Nat → Bytes → Bytes → Bool) (cx : Context) (p : Certificate)
        (v : Vote), cx.myid = cx.last_leader → v ∈ p.votes →
        cx.pub_key_map.lookup v.origin = none →
        handleCertificate ver cx Phase.Propose p = none) := by
  refine ⟨lookup_filter_ne_self cfg.pk_map cfg.id,
          fun i hi => lookup_filter_ne cfg.pk_map cfg.id i hi, ?_⟩
  intro ver cx p v hl hv hnone
  have hall : (p.votes.all
      (fun u => (cx.pub_key_map.lookup u.origin).isSome)) = false := by
    rw [List.all_eq_false]
    exact ⟨v, hv, by simp [hnone]⟩
  unfold handleCertificate
  rw [if_pos ⟨hl, rfl⟩, if_neg (by rw [hall]; exact Bool.false_ne_true)]

/-- Witness for pub_key_map_skips_self_and_cert_panics: replica 0's
own key is absent, replica 1's key survives construction, and a
certificate carrying a vote with origin 0 makes the handler panic. -/
theorem pub_key_map_skips_self_and_cert_panics_witness :
    (Context.new cfg2).pub_key_map.lookup cfg2.id = none ∧
    (Context.new cfg2).pub_key_map.lookup 1 = cfg2.pk_map.lookup 1 ∧
    handleCertificate verTrue (Context.new cfg2) Phase.Propose certOwn = none :=
  ⟨(pub_key_map_skips_self_and_cert_panics cfg2).1,
   (pub_key_map_skips_self_and_cert_panics cfg2).2.1 1 (by decide),
   (pub_key_map_skips_self_and_cert_panics cfg2).2.2 verTrue
     (Context.new cfg2) certOwn { msg := hashA, origin := 0, auth := [1] }
     rfl (by rw [certOwn]; exact List.mem_singleton.mpr rfl) (by rfl)⟩

/-- C10: the Reconstruct handler indexes reconstruct_queue directly
with the wire-supplied id n and consults no signature: it panics
(none) exactly when n is at least num_nodes (the queue array length),
and for n below num_nodes it succeeds, appending the entry to queue n
exactly when that queue is empty or its back epoch is at most e. -/
theorem reconstruct_no_bounds_check (cx : Context) (sh : Nat)
    (n : Replica) (e : Height)
    (hlen : cx.reconstruct_queue.length = cx.num_nodes) :
    (handleReconstruct cx sh n e = none ↔ cx.num_nodes ≤ n) ∧
    (n < cx.num_nodes →
      handleReconstruct cx sh n e =
        some { cx with reconstruct_queue :=
                (cx.reconstruct_queue.set n
                  (pushReconstruct (cx.reconstruct_queue.getD n []) sh e)) } ∧
      (cx.reconstruct_queue.getD n [] = [] →
        pushReconstruct (cx.reconstruct_queue.getD n []) sh e =
          cx.reconstruct_queue.getD n [] ++ [(sh, e)]) ∧
      (∀ b, (cx.reconstruct_queue.getD n []).getLast? = some b → b.2 ≤ e →
        pushReconstruct (cx.reconstruct_queue.getD n []) sh e =
          cx.reconstruct_queue.getD n [] ++ [(sh, e)]) ∧
      (∀ b, (cx.reconstruct_queue.getD n []).getLast? = some b → e < b.2 →
        pushReconstruct (cx.reconstruct_queue.getD n []) sh e =
          cx.reconstruct_queue.getD n [])) := by
  constructor
  · constructor
    · intro hnone
      by_contra hn
      have hlt : n < cx.reconstruct_queue.length := by
        rw [hlen]; exact Nat.lt_of_not_le hn
      rw [handleReconstruct, if_pos hlt] at hnone
      cases hnone
    · intro hge
      rw [handleReconstruct,
        if_neg (by rw [hlen]; exact Nat.not_lt.mpr hge)]
  · intro hn
    refine ⟨by rw [handleReconstruct, if_pos (by rw [hlen]; exact hn)], ?_, ?_, ?_⟩
    · intro hq
      rw [pushReconstruct, hq]
      rfl
    · intro b hb hle
      rw [pushReconstruct, hb]
      exact if_pos hle
    · intro b hb hgt
      rw [pushReconstruct, hb]
      exact if_neg (Int.not_le.mpr hgt)

/-- Witness for reconstruct_no_bounds_check: at a fresh two-replica
context, id 5 panics and id 1 is accepted without any check. -/
theorem reconstruct_no_bounds_check_witness :
    handleReconstruct (Context.new cfg2) 9 5 3 = none ∧
    (handleReconstruct (Context.new cfg2) 9 1 3).isSome = true := by
  refine ⟨(reconstruct_no_bounds_check (Context.new cfg2) 9 5 3 rfl).1.mpr
            (by decide), ?_⟩
  rw [((reconstruct_no_bounds_check (Context.new cfg2) 9 1 3 rfl).2
        (by decide)).1]
  rfl

theorem deliver_vote_cert_eq (pr : Prims) (cx : Context) (c : Certificate)
    (z : Bytes) (params pk : Nat)
    (hc : cx.received_certificate = some c)
    (hz : cx.received_certificate_sign = some z)
    (hm : cx.myid < cx.num_nodes)
    (hp : cx.accumulator_pub_params_map.lookup cx.last_leader = some params)
    (hpk : cx.pub_key_map.lookup cx.last_leader = some pk) :
    deliver_vote_cert pr cx =
      some ({ cx with
              vote_cert_gatherer :=
                (Gatherer.add_share pr.verifyShard cx.vote_cert_gatherer
                  ((to_shards (pr.serCert c) cx.num_nodes cx.num_faults).getD cx.myid [])
                  cx.myid params pk z),
              vote_cert_share_sent := true },
            ((List.range cx.num_nodes).filter (fun i => i ≠ cx.myid)).map
              (fun i => (cx.num_nodes, Msg.DeliverVoteCert
                ((to_shards (pr.serCert c) cx.num_nodes cx.num_faults).getD i []) i z)) ++
            [(cx.num_nodes, Msg.DeliverVoteCert
              ((to_shards (pr.serCert c) cx.num_nodes cx.num_faults).getD cx.myid [])
              cx.myid z)]) := by
  unfold deliver_vote_cert
  simp only [hc, hz]
  rw [if_pos (by rw [to_shards, List.length_map, List.length_range]; exact hm)]
  simp only [hp, hpk]

theorem deliver_vote_cert_no_key (pr : Prims) (cx : Context)
    (hpk : cx.pub_key_map.lookup cx.last_leader = none) :
    deliver_vote_cert pr cx = none := by
  unfold deliver_vote_cert
  split
  · split
    · rename_i params pk heqa heqb
      rw [hpk] at heqb
      cases heqb
    · simp
  · rfl

/-- Counterexample to C3: at the two-replica leader itself (replica 0,
last_leader 0, f = 0) the f+1-th inbound Vote does not produce the
claimed VoteCert/Commit transition: Context::new left the leader's own
key out of pub_key_map, so the dispersal inside the handler unwraps a
missing key and the handler panics (none). -/
theorem vote_trigger_at_leader_panics_cex :
    (Context.new cfg2).myid = (Context.new cfg2).last_leader ∧
    (Context.new cfg2).received_vote.length + 1 =
      (Context.new cfg2).num_faults + 1 ∧
    handleVoteMsg prims0 100 0 (Context.new cfg2) Phase.Vote voteW = none := by
  refine ⟨rfl, rfl, rfl⟩

/-- C3 (amended): the Vote handler appends every inbound vote to
received_vote; when the count reaches f+1 it builds
Certificate { votes: received_vote }, signs it, broadcasts VoteCert,
records the certificate and signature, disperses DeliverVoteCert
shards for every replica, and transitions to Commit with the deadline
reset to now + 2 * delta — provided the dispersal's lookups of
last_leader's accumulator parameters and public key succeed; when
last_leader's public key is absent (as at the leader itself under
Context::new, whose pub_key_map skips the own id) the handler panics
instead. -/
theorem vote_handler_mechanics (pr : Prims) (delta nowT : Int)
    (cx : Context) (phase : Phase) (v : Vote) :
    (cx.received_vote.length + 1 ≠ cx.num_faults + 1 →
      handleVoteMsg pr delta nowT cx phase v =
        some ({ cx with received_vote := cx.received_vote ++ [v] },
              phase, none, [])) ∧
    (∀ params pk,
      cx.received_vote.length + 1 = cx.num_faults + 1 →
      cx.myid < cx.num_nodes →
      cx.accumulator_pub_params_map.lookup cx.last_leader = some params →
      cx.pub_key_map.lookup cx.last_leader = some pk →
      ∃ cx3 dmsgs,
        handleVoteMsg pr delta nowT cx phase v =
          some (cx3, Phase.Commit, some (nowT + 2 * delta),
            (cx.num_nodes,
              Msg.VoteCert { votes := cx.received_vote ++ [v] }
                (pr.getSign (pr.serCert { votes := cx.received_vote ++ [v] }))) :: dmsgs) ∧
        cx3.received_vote = cx.received_vote ++ [v] ∧
        cx3.received_certificate = some { votes := cx.received_vote ++ [v] } ∧
        cx3.received_certificate_sign =
          some (pr.getSign (pr.serCert { votes := cx.received_vote ++ [v] })) ∧
        cx3.vote_cert_share_sent = true ∧
        cx3.vote_cert_gatherer =
          Gatherer.add_share pr.verifyShard cx.vote_cert_gatherer
            ((to_shards (pr.serCert { votes := cx.received_vote ++ [v] })
                cx.num_nodes cx.num_faults).getD cx.myid [])
            cx.myid params pk
            (pr.getSign (pr.serCert { votes := cx.received_vote ++ [v] })) ∧
        (∀ i, i < cx.num_nodes → ∃ sh,
          (cx.num_nodes, Msg.DeliverVoteCert sh i
            (pr.getSign (pr.serCert { votes := cx.received_vote ++ [v] }))) ∈ dmsgs)) ∧
    (cx.received_vote.length + 1 = cx.num_faults + 1 →
      cx.pub_key_map.lookup cx.last_leader = none →
      handleVoteMsg pr delta nowT cx phase v = none) := by
  have hlen : ((cx.received_vote ++ [v]).length = cx.num_faults + 1) ↔
      (cx.received_vote.length + 1 = cx.num_faults + 1) := by
    rw [List.length_append, List.length_singleton]
  refine ⟨?_, ?_, ?_⟩
  · intro hne
    unfold handleVoteMsg
    rw [if_neg (fun hc => hne (hlen.mp hc))]
  · intro params pk htrig hm hp hpk
    have heq := deliver_vote_cert_eq pr
      { cx with
          received_vote := cx.received_vote ++ [v],
          received_certificate := some { votes := cx.received_vote ++ [v] },
          received_certificate_sign :=
            some (pr.getSign (pr.serCert { votes := cx.received_vote ++ [v] })) }
      { votes := cx.received_vote ++ [v] }
      (pr.getSign (pr.serCert { votes := cx.received_vote ++ [v] }))
      params pk rfl rfl hm hp hpk
    refine ⟨{ cx with
          received_vote := cx.received_vote ++ [v],
          received_certificate := some { votes := cx.received_vote ++ [v] },
          received_certificate_sign :=
            some (pr.getSign (pr.serCert { votes := cx.received_vote ++ [v] })),
          vote_cert_gatherer :=
            (Gatherer.add_share pr.verifyShard cx.vote_cert_gatherer
              ((to_shards (pr.serCert { votes := cx.received_vote ++ [v] })
                  cx.num_nodes cx.num_faults).getD cx.myid [])
              cx.myid params pk
              (pr.getSign (pr.serCert { votes := cx.received_vote ++ [v] }))),
          vote_cert_share_sent := true },
        ((List.range cx.num_nodes).filter (fun i => i ≠ cx.myid)).map
          (fun i => (cx.num_nodes, Msg.DeliverVoteCert
            ((to_shards (pr.serCert { votes := cx.received_vote ++ [v] })
                cx.num_nodes cx.num_faults).getD i []) i
            (pr.getSign (pr.serCert { votes := cx.received_vote ++ [v] })))) ++
        [(cx.num_nodes, Msg.DeliverVoteCert
          ((to_shards (pr.serCert { votes := cx.received_vote ++ [v] })
              cx.num_nodes cx.num_faults).getD cx.myid [])
          cx.myid (pr.getSign (pr.serCert { votes := cx.received_vote ++ [v] })))],
        ?_, rfl, rfl, rfl, rfl, rfl, ?_⟩
    · unfold handleVoteMsg
      rw [if_pos (hlen.mpr htrig)]
      simp only [heq]
    · intro i hi
      by_cases hieq : i = cx.myid
      · subst hieq
        exact ⟨_, List.mem_append_right _ (List.mem_singleton.mpr rfl)⟩
      · refine ⟨_, List.mem_append_left _ (List.mem_map.mpr ⟨i, ?_, rfl⟩)⟩
        exact List.mem_filter.mpr ⟨List.mem_range.mpr hi, by simp [hieq]⟩
  · intro htrig hpk
    have hnone := deliver_vote_cert_no_key pr
      { cx with
          received_vote := cx.received_vote ++ [v],
          received_certificate := some { votes := cx.received_vote ++ [v] },
          received_certificate_sign :=
            some (pr.getSign (pr.serCert { votes := cx.received_vote ++ [v] })) }
      hpk
    unfold handleVoteMsg
    rw [if_pos (hlen.mpr htrig)]
    simp only [hnone]

/-- Witness for vote_handler_mechanics at replica 1 (where
last_leader 0's keys are present): the f+1-th vote triggers the
VoteCert/Commit transition. -/
theorem vote_handler_mechanics_witness :
    (Context.new cfg2b).received_vote.length + 1 =
      (Context.new cfg2b).num_faults + 1 ∧
    (handleVoteMsg prims0 100 7 (Context.new cfg2b) Phase.Vote voteW).isSome = true := by
  refine ⟨rfl, ?_⟩
  obtain ⟨cx3, dmsgs, heq, -⟩ :=
    (vote_handler_mechanics prims0 100 7 (Context.new cfg2b) Phase.Vote voteW).2.1
      20 10 rfl (by decide) rfl rfl
  rw [heq]
  rfl

theorem stageVss_fields (pr : Prims) (vssGen : List (Nat × List Nat))
    (cx cx' : Context) (ms : List (Replica × Msg))
    (h : stageVss pr vssGen cx = some (cx', ms)) :
    cx'.last_leader = cx.last_leader ∧ cx'.num_nodes = cx.num_nodes := by
  unfold stageVss at h
  split at h
  · cases h
    exact ⟨rfl, rfl⟩
  · cases h

theorem phaseEnd_last_leader (pr : Prims) (vssGen : List (Nat × List Nat))
    (beginT delta nowT : Int) (epoch : Height) (cx cx' : Context)
    (e' : Height) (ph : Phase) (dl : Int) (ms : List (Replica × Msg))
    (h : phaseEnd pr vssGen beginT delta nowT epoch cx =
      some (cx', e', ph, dl, ms)) :
    cx'.last_leader = (cx.last_leader + 1) % cx.num_nodes ∧
    cx'.num_nodes = cx.num_nodes := by
  unfold phaseEnd at h
  split at h
  · dsimp only at h
    split at h
    · rw [Option.bind_eq_some] at h
      obtain ⟨s, hs, h⟩ := h
      rw [Option.bind_eq_some] at h
      obtain ⟨r, hr, h⟩ := h
      cases h
      have hsf : s.1.last_leader = cx.next_leader ∧
          s.1.num_nodes = cx.num_nodes := by
        split at hs
        · exact stageVss_fields _ _ _ _ _ hs
        · cases hs
          exact ⟨rfl, rfl⟩
      exact ⟨hsf.1, hsf.2⟩
    · rw [Option.bind_eq_some] at h
      obtain ⟨r, hr, h⟩ := h
      cases h
      exact ⟨rfl, rfl⟩
  · cases h

/-- C5: each completed End transition sets last_leader to its
round-robin successor (last_leader + 1) mod num_nodes, and over any
chain of K consecutive End transitions the leader takes the values
(start + 1) mod N, (start + 2) mod N, ... with no repeats inside any
window shorter than N. -/
theorem leader_rotation_round_robin :
    (∀ pr vssGen beginT delta nowT epoch cx cx' e' ph dl ms,
        phaseEnd pr vssGen beginT delta nowT epoch cx =
          some (cx', e', ph, dl, ms) →
        cx'.last_leader = (cx.last_leader + 1) % cx.num_nodes ∧
        cx'.num_nodes = cx.num_nodes) ∧
    (∀ (seq : Nat → Context) (K : Nat),
        (∀ k, k < K → EndStep (seq k) (seq (k + 1))) →
        (∀ k, 1 ≤ k → k ≤ K →
            (seq k).last_leader =
              ((seq 0).last_leader + k) % (seq 0).num_nodes) ∧
        (∀ i j, 1 ≤ i → i < j → j ≤ K → j - i < (seq 0).num_nodes →
            (seq i).last_leader ≠ (seq j).last_leader)) := by
  have hstep : ∀ cx cx', EndStep cx cx' →
      cx'.last_leader = (cx.last_leader + 1) % cx.num_nodes ∧
      cx'.num_nodes = cx.num_nodes := by
    rintro cx cx' ⟨pr, vg, b, d, n, e, e', ph, dl, ms, h⟩
    exact phaseEnd_last_leader pr vg b d n e cx cx' e' ph dl ms h
  refine ⟨fun pr vg b d n e cx cx' e' ph dl ms h =>
      phaseEnd_last_leader pr vg b d n e cx cx' e' ph dl ms h, ?_⟩
  intro seq K hchain
  have hnn : ∀ k, k ≤ K → (seq k).num_nodes = (seq 0).num_nodes := by
    intro k
    induction k with
    | zero => intro _; rfl
    | succ m ih =>
        intro hk
        rw [(hstep _ _ (hchain m (Nat.lt_of_succ_le hk))).2,
          ih (Nat.le_of_succ_le hk)]
  have hll : ∀ k, 1 ≤ k → k ≤ K →
      (seq k).last_leader = ((seq 0).last_leader + k) % (seq 0).num_nodes := by
    intro k
    induction k with
    | zero => intro h1; exact absurd h1 (by decide)
    | succ m ih =>
        intro _ hk
        have hs := hstep _ _ (hchain m (Nat.lt_of_succ_le hk))
        cases Nat.eq_zero_or_pos m with
        | inl h0 =>
            subst h0
            exact hs.1
        | inr hpos =>
            rw [hs.1, ih hpos (Nat.le_of_succ_le hk),
              hnn m (Nat.le_of_succ_le hk), Nat.mod_add_mod]
            rfl
  refine ⟨hll, ?_⟩
  intro i j hi hij hjK hwin heq
  rw [hll i hi (le_of_lt (lt_of_lt_of_le hij hjK)),
    hll j (le_trans hi (le_of_lt hij)) hjK] at heq
  have hmod : (seq 0).num_nodes ∣
      ((seq 0).last_leader + j) - ((seq 0).last_leader + i) :=
    (Nat.modEq_iff_dvd' (Nat.add_le_add_left (le_of_lt hij) _)).mp heq
  rw [Nat.add_sub_add_left] at hmod
  exact absurd hwin
    (Nat.not_lt.mpr (Nat.le_of_dvd (Nat.sub_pos_of_lt hij) hmod))

/-- Witness for leader_rotation_round_robin: a concrete one-replica
End transition evaluates and rotates last_leader to
(last_leader + 1) mod num_nodes. -/
theorem leader_rotation_round_robin_witness :
    phaseEnd prims0 [] 0 10 5 0 (Context.new cfg1) =
      some ({ Context.new cfg1 with rand_beacon_queue := [(0, [])] },
            1, Phase.Propose, 25, []) ∧
    (Context.new cfg1).last_leader =
      ((Context.new cfg1).last_leader + 1) % (Context.new cfg1).num_nodes :=
  ⟨by rfl,
   (leader_rotation_round_robin.1 prims0 [] 0 10 5 0 (Context.new cfg1)
      { Context.new cfg1 with rand_beacon_queue := [(0, [])] }
      1 Phase.Propose 25 [] (by rfl)).1⟩

theorem mem_of_getLast?_eq (l : List (Nat × Height)) (b : Nat × Height)
    (h : l.getLast? = some b) : b ∈ l := by
  obtain ⟨hne, rfl⟩ := List.mem_getLast?_eq_getLast (by rw [h]; exact rfl)
  exact List.getLast_mem hne

theorem epochsSorted_le_getLast (q : List (Nat × Height)) (b : Nat × Height)
    (hs : EpochsSorted q) (hb : q.getLast? = some b) :
    ∀ a ∈ q, a.2 ≤ b.2 := by
  induction q with
  | nil => cases hb
  | cons x t ih =>
      rw [EpochsSorted, List.pairwise_cons] at hs
      cases t with
      | nil =>
          rw [List.getLast?_singleton] at hb
          cases hb
          intro a ha
          rw [List.mem_singleton] at ha
          subst ha
          exact le_refl _
      | cons y t' =>
          rw [List.getLast?_cons_cons] at hb
          intro a ha
          rw [List.mem_cons] at ha
          cases ha with
          | inl hax =>
              subst hax
              exact hs.1 b (mem_of_getLast?_eq _ _ hb)
          | inr hat => exact ih hs.2 hb a hat

theorem pushReconstruct_sorted (q : List (Nat × Height)) (sh : Nat)
    (e : Height) (hs : EpochsSorted q) :
    EpochsSorted (pushReconstruct q sh e) := by
  unfold pushReconstruct
  cases hb : q.getLast? with
  | none =>
      rw [List.getLast?_eq_none_iff] at hb
      subst hb
      exact List.pairwise_singleton _ _
  | some b =>
      show EpochsSorted (if b.2 ≤ e then q ++ [(sh, e)] else q)
      by_cases hle : b.2 ≤ e
      · rw [if_pos hle]
        rw [EpochsSorted, List.pairwise_append]
        refine ⟨hs, List.pairwise_singleton _ _, ?_⟩
        intro a ha c hc
        rw [List.mem_singleton] at hc
        subst hc
        exact le_trans (epochsSorted_le_getLast q b hs hb a ha) hle
      · rw [if_neg hle]
        exact hs

theorem drainQueue_sorted (epoch : Height) (q : List (Nat × Height))
    (hs : EpochsSorted q) : EpochsSorted (drainQueue epoch q).2 := by
  unfold drainQueue
  exact List.Pairwise.sublist
    ((List.dropWhile_sublist _).trans (List.dropWhile_sublist _)) hs

theorem queuesSorted_getD (qs : List (List (Nat × Height)))
    (h : QueuesSorted qs) (i : Nat) : EpochsSorted (qs.getD i []) := by
  by_cases hi : i < qs.length
  · rw [List.getD_eq_getElem qs [] hi]
    exact h _ (List.getElem_mem hi)
  · rw [List.getD_eq_getElem?_getD, List.getElem?_eq_none (Nat.le_of_not_lt hi)]
    exact List.Pairwise.nil

theorem handleCertificate_queues (ver : Nat → Bytes → Bytes → Bool)
    (cx : Context) (phase : Phase) (p : Certificate) (cx' : Context) (w : Nat)
    (h : handleCertificate ver cx phase p = some (cx', w)) :
    cx'.reconstruct_queue = cx.reconstruct_queue := by
  unfold handleCertificate at h
  try dsimp only at h
  repeat' split at h
  all_goals first | (cases h; rfl) | cases h

theorem deliver_vote_cert_queues (pr : Prims) (cx cx' : Context)
    (ms : List (Replica × Msg))
    (h : deliver_vote_cert pr cx = some (cx', ms)) :
    cx'.reconstruct_queue = cx.reconstruct_queue := by
  unfold deliver_vote_cert at h
  try dsimp only at h
  repeat' split at h
  all_goals first | (cases h; rfl) | cases h

theorem deliver_commit_queues (pr : Prims) (cx cx' : Context)
    (ms : List (Replica × Msg))
    (h : deliver_commit pr cx = some (cx', ms)) :
    cx'.reconstruct_queue = cx.reconstruct_queue := by
  unfold deliver_commit at h
  try dsimp only at h
  repeat' split at h
  all_goals first | (cases h; rfl) | cases h

theorem handleVoteMsg_queues (pr : Prims) (delta nowT : Int) (cx : Context)
    (phase : Phase) (v : Vote) (cx' : Context) (ph : Phase)
    (dl : Option Int) (ms : List (Replica × Msg))
    (h : handleVoteMsg pr delta nowT cx phase v = some (cx', ph, dl, ms)) :
    cx'.reconstruct_queue = cx.reconstruct_queue := by
  unfold handleVoteMsg at h
  dsimp only at h
  split at h
  · split at h
    · cases h
    · rename_i heq
      cases h
      have hdq := deliver_vote_cert_queues _ _ _ _ heq
      exact hdq
  · cases h
    rfl

theorem handleVoteCertMsg_queues (pr : Prims) (delta nowT : Int)
    (cx : Context) (c : Certificate) (z : Bytes) (cx' : Context) (ph : Phase)
    (dl : Option Int) (ms : List (Replica × Msg))
    (h : handleVoteCertMsg pr delta nowT cx c z = some (cx', ph, dl, ms)) :
    cx'.reconstruct_queue = cx.reconstruct_queue := by
  unfold handleVoteCertMsg at h
  dsimp only at h
  split at h
  · cases h
  · rename_i heq
    cases h
    have hdq := deliver_vote_cert_queues _ _ _ _ heq
    exact hdq

theorem handleCommitMsg_queues (cx : Context) (sh : List Nat) (c : List Nat)
    (z : Bytes) (cx' : Context)
    (h : handleCommitMsg cx sh c z = some cx') :
    cx'.reconstruct_queue = cx.reconstruct_queue := by
  unfold handleCommitMsg at h
  try dsimp only at h
  repeat' split at h
  all_goals first | (cases h; rfl) | cases h

theorem handleDeliverCommit_queues (pr : Prims) (cx : Context) (sh : Bytes)
    (n : Replica) (z : Bytes) (cx' : Context) (ms : List (Replica × Msg))
    (h : handleDeliverCommit pr cx sh n z = some (cx', ms)) :
    cx'.reconstruct_queue = cx.reconstruct_queue := by
  unfold handleDeliverCommit at h
  try dsimp only at h
  repeat' split at h
  all_goals first | (cases h; rfl) | cases h

theorem phaseVote_queues (pr : Prims) (beginT delta : Int) (epoch : Int)
    (cx cx' : Context) (ph : Phase) (dl : Int) (ms : List (Replica × Msg))
    (h : phaseVote pr beginT delta epoch cx = some (cx', ph, dl, ms)) :
    cx'.reconstruct_queue = cx.reconstruct_queue := by
  unfold phaseVote at h
  try dsimp only at h
  repeat' split at h
  all_goals first | (cases h; rfl) | cases h

theorem phaseCommit_queues (pr : Prims) (beginT delta : Int) (epoch : Int)
    (cx cx' : Context) (ph : Phase) (dl : Int) (ms : List (Replica × Msg))
    (h : phaseCommit pr beginT delta epoch cx = some (cx', ph, dl, ms)) :
    cx'.reconstruct_queue = cx.reconstruct_queue := by
  unfold phaseCommit at h
  try dsimp only at h
  repeat' split at h
  all_goals first | (cases h; rfl) | cases h

theorem handleReconstruct_queues (cx : Context) (sh : Nat) (n : Replica)
    (e : Height) (cx' : Context)
    (h : handleReconstruct cx sh n e = some cx') :
    cx'.reconstruct_queue =
      cx.reconstruct_queue.set n
        (pushReconstruct (cx.reconstruct_queue.getD n []) sh e) := by
  unfold handleReconstruct at h
  split at h
  · cases h
    rfl
  · cases h

theorem stageVss_queues (pr : Prims) (vssGen : List (Nat × List Nat))
    (cx cx' : Context) (ms : List (Replica × Msg))
    (h : stageVss pr vssGen cx = some (cx', ms)) :
    cx'.reconstruct_queue = cx.reconstruct_queue := by
  unfold stageVss at h
  split at h
  · cases h
    rfl
  · cases h

theorem phaseEnd_queues (pr : Prims) (vssGen : List (Nat × List Nat))
    (beginT delta nowT : Int) (epoch : Height) (cx cx' : Context)
    (e' : Height) (ph : Phase) (dl : Int) (ms : List (Replica × Msg))
    (h : phaseEnd pr vssGen beginT delta nowT epoch cx =
      some (cx', e', ph, dl, ms)) :
    cx'.reconstruct_queue = (List.range cx.num_nodes).map
      (fun i => (drainQueue epoch (cx.reconstruct_queue.getD i [])).2) := by
  unfold phaseEnd at h
  split at h
  · dsimp only at h
    split at h
    · rw [Option.bind_eq_some] at h
      obtain ⟨s, hs, h⟩ := h
      rw [Option.bind_eq_some] at h
      obtain ⟨r, hr, h⟩ := h
      cases h
      show s.1.reconstruct_queue = _
      have hq : s.1.reconstruct_queue = List.map (fun d => d.2)
          (List.map (fun i => drainQueue epoch (cx.reconstruct_queue.getD i []))
            (List.range cx.num_nodes)) := by
        split at hs
        · exact stageVss_queues _ _ _ _ _ hs
        · cases hs
          rfl
      rw [hq, List.map_map]
      rfl
    · rw [Option.bind_eq_some] at h
      obtain ⟨r, hr, h⟩ := h
      cases h
      show List.map (fun d => d.2)
          (List.map (fun i => drainQueue epoch (cx.reconstruct_queue.getD i []))
            (List.range cx.num_nodes)) = _
      rw [List.map_map]
      rfl
  · cases h

/-- C7: the epoch tags in each per-author reconstruct queue are
non-decreasing from front to back. The guarded append of the
Reconstruct handler preserves the order, the End-phase drain (which
removes only from the front) preserves it, and the invariant holds in
every state reachable from a freshly constructed context under the
modelled transitions. -/
theorem reconstruct_queue_monotone :
    (∀ q sh e, EpochsSorted q → EpochsSorted (pushReconstruct q sh e)) ∧
    (∀ epoch q, EpochsSorted q → EpochsSorted (drainQueue epoch q).2) ∧
    (∀ cfg cx, Reach cfg cx → QueuesSorted cx.reconstruct_queue) := by
  refine ⟨pushReconstruct_sorted, drainQueue_sorted, ?_⟩
  intro cfg cx hr
  induction hr with
  | refl =>
      intro q hq
      have : q = [] := List.eq_of_mem_replicate hq
      subst this
      exact List.Pairwise.nil
  | tail hsteps hstep ih =>
      cases hstep with
      | certificate =>
          rename_i h
          rw [handleCertificate_queues _ _ _ _ _ _ h]
          exact ih
      | propose => exact ih
      | vote =>
          rename_i h
          rw [handleVoteMsg_queues _ _ _ _ _ _ _ _ _ _ h]
          exact ih
      | voteCert =>
          rename_i h
          rw [handleVoteCertMsg_queues _ _ _ _ _ _ _ _ _ _ h]
          exact ih
      | reconstruct =>
          rename_i sh n e h
          rw [handleReconstruct_queues _ _ _ _ _ h]
          intro q hq
          cases List.mem_or_eq_of_mem_set hq with
          | inl hmem => exact ih q hmem
          | inr hpush =>
              subst hpush
              exact pushReconstruct_sorted _ _ _
                (queuesSorted_getD _ ih n)
      | commitMsg =>
          rename_i h
          rw [handleCommitMsg_queues _ _ _ _ _ h]
          exact ih
      | deliverCommit =>
          rename_i h
          rw [handleDeliverCommit_queues _ _ _ _ _ _ _ h]
          exact ih
      | ack => exact ih
      | dispComm =>
          rename_i h
          rw [deliver_commit_queues _ _ _ _ h]
          exact ih
      | dispVC =>
          rename_i h
          rw [deliver_vote_cert_queues _ _ _ _ h]
          exact ih
      | phVote =>
          rename_i h
          rw [phaseVote_queues _ _ _ _ _ _ _ _ _ h]
          exact ih
      | phCommit =>
          rename_i h
          rw [phaseCommit_queues _ _ _ _ _ _ _ _ _ h]
          exact ih
      | phEnd =>
          rename_i h
          rw [phaseEnd_queues _ _ _ _ _ _ _ _ _ _ _ _ h]
          intro q hq
          obtain ⟨i, hi, rfl⟩ := List.mem_map.mp hq
          exact drainQueue_sorted _ _ (queuesSorted_getD _ ih i)

/-- Witness for reconstruct_queue_monotone: the invariant at the state
reached from a fresh two-replica context by one accepted Reconstruct
message. -/
theorem reconstruct_queue_monotone_witness :
    QueuesSorted ({ Context.new cfg2 with
      reconstruct_queue := [[], [(9, 3)]] }).reconstruct_queue :=
  reconstruct_queue_monotone.2.2 cfg2
    { Context.new cfg2 with reconstruct_queue := [[], [(9, 3)]] }
    (Relation.ReflTransGen.single
      (Step.reconstruct (Context.new cfg2) 9 1 3
        { Context.new cfg2 with reconstruct_queue := [[], [(9, 3)]] }
        (by rfl)))
